import Mathlib

/-! # Verification development for the zkpServer core (src/app/main.py)

Shallow embedding of the repository's core: the proof-derivation function
`tokenize` (with its helper `round_sig`), the time-window function
`time_seed`, and the per-user state machine (`ZKUser`, `ZKServer`).

Modelling conventions:
* Python's arbitrary-precision integers become `ℤ` (digits become `ℕ`).
* Python floats become `ℝ`; `math.sin`, `math.tan` and `math.log(_, 10)`
  become `Real.sin`, `Real.tan` and `Real.logb 10`.  Python's `x % 1` on a
  float yields the representative in `[0, 1)`, which is `Int.fract`.
* Python exceptions become `Except TokError`: the `ValueError` raised by
  `int(c)` on a non-digit character (sign of a negative key, or the letters
  of `str(None)`) is `TokError.invalidDigit`; the explicit
  `ValueError("Keys must be the same length.")` is `TokError.lengthMismatch`;
  the `ValueError` ("math domain error") raised by `math.log` on a
  non-positive argument is `TokError.domainError`.  In this real-number
  model no arithmetic overflows, so the `except OverflowError` branch of
  `tokenize` (which would absorb a position's contribution as `0`) has no
  reachable counterpart.
* The system clock read by `time_seed` becomes an explicit `UTCTime`
  argument threaded through the operations; the `random.randint` calls
  become explicit `fresh` arguments supplied by the caller.
* In-place mutation of a `ZKUser` object becomes explicit state passing:
  each operation returns its result together with the updated record or
  server, the update being visible even when an exception escapes (as the
  Python mutation is).
-/

open Classical

/-- Error outcomes of the derivation function, mirroring the distinct Python
exceptions that can escape `tokenize` (see the module docstring). -/
inductive TokError where
  | invalidDigit
  | lengthMismatch
  | domainError
  deriving DecidableEq

/-- Fuel-indexed helper computing the decimal digits of `n`, most significant
first, as `str(n)` followed by per-character `int` does for a positive
Python int.  The fuel (always instantiated with `n` itself) only makes the
recursion structural; it never runs out since `n / 10 < n` for `n ≥ 1`. -/
def digitsAux : ℕ → ℕ → List ℕ
  | 0, _ => []
  | _ + 1, 0 => []
  | fuel + 1, n + 1 => digitsAux fuel ((n + 1) / 10) ++ [(n + 1) % 10]

/-- The decimal digit sequence of a non-negative integer, most significant
digit first, no sign, no padding: the model of `[int(d) for d in str(n)]`
for `n ≥ 0`.  `str(0) = "0"` gives `[0]`. -/
def decimalDigits (n : ℕ) : List ℕ :=
  if n = 0 then [0] else digitsAux n n

/-- Model of `[int(d) for d in str(key)]` for a Python int `key`: for a negative key
the first character of `str(key)` is `'-'` and `int('-')` raises
`ValueError` before any digit is produced. -/
def digitsOf (key : ℤ) : Except TokError (List ℕ) :=
  if key < 0 then Except.error TokError.invalidDigit
  else Except.ok (decimalDigits key.toNat)

/-- A UTC wall-clock instant as far as the program can observe it.  The
`minute` field lets two distinct instants fall in the same hour. -/
structure UTCTime where
  year : ℕ
  month : ℕ
  day : ℕ
  hour : ℕ
  minute : ℕ
  deriving DecidableEq

/-- Basic calendar sanity for a `UTCTime`. -/
def UTCTime.valid (t : UTCTime) : Prop :=
  1 ≤ t.month ∧ t.month ≤ 12 ∧ 1 ≤ t.day ∧ t.day ≤ 31 ∧ t.hour < 24 ∧ t.minute < 60

instance (t : UTCTime) : Decidable t.valid := by
  unfold UTCTime.valid; infer_instance

/-- Modelled from the spec's words (the phrase "within the same UTC hour of
the same UTC day" names a relation on instants that the code itself never
defines): two instants lie in the same UTC hour of the same UTC day iff
their year, month, day-of-month and hour agree. -/
def sameUTCHour (t₁ t₂ : UTCTime) : Prop :=
  t₁.year = t₂.year ∧ t₁.month = t₂.month ∧ t₁.day = t₂.day ∧ t₁.hour = t₂.hour

instance (t₁ t₂ : UTCTime) : Decidable (sameUTCHour t₁ t₂) := by
  unfold sameUTCHour; infer_instance

/-- Model of `time_seed(offset)`: `now.day * 100 + now.hour + offset` computed from
the current UTC wall clock, here passed explicitly. -/
def time_seed (now : UTCTime) (offset : ℤ) : ℤ :=
  (now.day : ℤ) * 100 + (now.hour : ℤ) + offset

/-- The constant `KEY_LENGTH = 4` (the demo key digit-length `L`). -/
def KEY_LENGTH : ℕ := 4

/-- Round-half-even to the nearest integer: Python's `round` on floats
"rounds ties toward the even choice"; away from a tie it agrees with
Mathlib's `round`. -/
noncomputable def roundHalfEven (x : ℝ) : ℤ :=
  if Int.fract x = 1 / 2 then
    (if Even ⌊x⌋ then ⌊x⌋ else ⌊x⌋ + 1)
  else round x

/-- Model of `round_sig(x, sig)`: `0` maps to `0`; otherwise round `x` to
`decimals = sig - order - 1` decimal places where
`order = floor(log10(|x|))`.  `round(x, d)` is the nearest multiple of
`10 ^ (-d)` (ties to even), i.e. `roundHalfEven (x * 10 ^ d) / 10 ^ d`. -/
noncomputable def round_sig (x : ℝ) (sig : ℕ) : ℝ :=
  if x = 0 then 0
  else
    (roundHalfEven (x * 10 ^ ((sig : ℤ) - ⌊Real.logb 10 |x|⌋ - 1)) : ℝ) /
      10 ^ ((sig : ℤ) - ⌊Real.logb 10 |x|⌋ - 1)

/-- Model of `math.sin(val) if i % 2 == 0 else math.tan(val)`. -/
noncomputable def sinOrTan (i : ℕ) (val : ℝ) : ℝ :=
  if i % 2 = 0 then Real.sin val else Real.tan val

/-- One iteration of the `tokenize` loop at position `i` with secret digit
`a` and challenge digit `b`: `tval = a * seed ** b`; `val = 0` when
`tval == 0`, otherwise `val = 10 ** (math.log(tval, 10) % 1)` — which for a
negative `tval` raises `math.log`'s domain `ValueError` (it is not an
`OverflowError`, so the surrounding `except` does not catch it). -/
noncomputable def tokTerm (i a b : ℕ) (seed : ℤ) : Except TokError ℝ :=
  let tval : ℤ := (a : ℤ) * seed ^ b
  if tval = 0 then Except.ok (sinOrTan i 0)
  else if tval < 0 then Except.error TokError.domainError
  else Except.ok (sinOrTan i ((10 : ℝ) ^ Int.fract (Real.logb 10 (tval : ℝ))))

/-- The `for i in range(len(l1))` loop of `tokenize`, accumulating the
per-position terms; the first raised exception aborts the whole loop.
(The accumulation order differs from Python's left fold only by
reassociation, which is exact over `ℝ`.) -/
noncomputable def tokenLoop (seed : ℤ) : ℕ → List ℕ → List ℕ → Except TokError ℝ
  | _, [], _ => Except.ok 0
  | _, _ :: _, [] => Except.ok 0
  | i, a :: as, b :: bs =>
    match tokTerm i a b seed with
    | Except.error e => Except.error e
    | Except.ok temp =>
      match tokenLoop seed (i + 1) as bs with
      | Except.error e => Except.error e
      | Except.ok rest => Except.ok (temp + rest)

/-- Model of `tokenize(key1, key2, seed)`: digit decomposition of both keys (in
order, so a bad `key1` fails first), the length check, the accumulation
loop, and the final rounding to `KEY_LENGTH` significant digits. -/
noncomputable def tokenize (key1 key2 seed : ℤ) : Except TokError ℝ :=
  match digitsOf key1, digitsOf key2 with
  | Except.error e, _ => Except.error e
  | Except.ok _, Except.error e => Except.error e
  | Except.ok l1, Except.ok l2 =>
    if l1.length ≠ l2.length then Except.error TokError.lengthMismatch
    else
      match tokenLoop seed 0 l1 l2 with
      | Except.error e => Except.error e
      | Except.ok result => Except.ok (round_sig result KEY_LENGTH)

/-- Model of `tokenize(key1, self.key2, seed)` as `ZKUser.verify` calls it: when
`self.key2` is `None`, `str(None) = "None"` and `int('N')` raises
`ValueError` during digit extraction. -/
noncomputable def tokenizeOpt (key1 : ℤ) (key2 : Option ℤ) (seed : ℤ) :
    Except TokError ℝ :=
  match key2 with
  | none => Except.error TokError.invalidDigit
  | some k => tokenize key1 k seed

/-- The per-identity record held by the server (`ZKUser.__init__`):
`key2` and `stime` start as `None`, `locked` as `False`. -/
structure ZKUser where
  name : String
  key1 : ℤ
  key2 : Option ℤ
  stime : Option ℤ
  locked : Bool
  deriving DecidableEq

/-- Model of the constructor call `ZKUser(name, key1)`. -/
def ZKUser.init (name : String) (key1 : ℤ) : ZKUser :=
  { name := name, key1 := key1, key2 := none, stime := none, locked := false }

/-- Model of `ZKUser.get_challenge_key`: store a fresh challenge key (the
`random.randint` draw, passed in explicitly) and the current time window,
return the key together with the mutated record. -/
def ZKUser.get_challenge_key (u : ZKUser) (fresh : ℤ) (now : UTCTime) :
    ℤ × ZKUser :=
  (fresh, { u with key2 := some fresh, stime := some (time_seed now 0) })

/-- Model of `ZKUser.verify`: reject at once when `locked` and the stored window
equals the current one (`None == int` is `False` in Python, matching
`Option` equality here); otherwise set `locked = True`, recompute the proof
at the *current* window and compare exactly.  The pair's second component is
the record as mutated by the call, returned even when the derivation raises
(the Python object keeps `locked = True` in that case too). -/
noncomputable def ZKUser.verify (u : ZKUser) (token : ℝ) (now : UTCTime) :
    Except TokError Bool × ZKUser :=
  if u.locked = true ∧ u.stime = some (time_seed now 0) then
    (Except.ok false, u)
  else
    match tokenizeOpt u.key1 u.key2 (time_seed now 0) with
    | Except.error e => (Except.error e, { u with locked := true })
    | Except.ok proof =>
      (Except.ok (if proof = token then true else false), { u with locked := true })

/-- The server state: the `self.users` dict as a map from identity to
record. -/
structure ZKServer where
  users : String → Option ZKUser

/-- Model of the dict write `self.users[username] = u`. -/
def ZKServer.update (s : ZKServer) (username : String) (u : ZKUser) : ZKServer :=
  ⟨fun n => if n = username then some u else s.users n⟩

/-- Model of `ZKServer.register_user`: an already-registered identity gets its
existing `key1` back with no state change; otherwise a record is created
with the fresh key (the `random.randint` draw, passed in explicitly). -/
def ZKServer.register_user (s : ZKServer) (username : String) (fresh : ℤ) :
    ℤ × ZKServer :=
  match s.users username with
  | some u => (u.key1, s)
  | none => (fresh, s.update username (ZKUser.init username fresh))

/-- Model of `ZKServer.issue_challenge`: `none` (mapped by the HTTP layer to a
distinct 404 "User not found") for an unknown identity, otherwise the
record's `get_challenge_key`. -/
def ZKServer.issue_challenge (s : ZKServer) (username : String) (fresh : ℤ)
    (now : UTCTime) : Option ℤ × ZKServer :=
  match s.users username with
  | none => (none, s)
  | some u =>
    (some (u.get_challenge_key fresh now).1,
      s.update username (u.get_challenge_key fresh now).2)

/-- Model of `ZKServer.verify_token`: `False` for an unknown identity (the same
value a wrong proof produces), otherwise the record's `verify`. -/
noncomputable def ZKServer.verify_token (s : ZKServer) (username : String)
    (token : ℝ) (now : UTCTime) : Except TokError Bool × ZKServer :=
  match s.users username with
  | none => (Except.ok false, s)
  | some u =>
    ((u.verify token now).1, s.update username (u.verify token now).2)

/-! ## Spec-side definitions

`specTerm`, `specSum` and `specDerive` transcribe the specification's
wording of the derivation formula (§4.2 of the spec), to be compared with
the source-derived `tokenize`.
-/

/-- Modelled from the spec's words: "Compute `t = a * seed^b` ...; if
`t == 0`, let `v = 0`; otherwise let `v = 10 ^ (log10(t) mod 1)`", then
"Apply `sin(v)` if `i` is even, `tan(v)` if `i` is odd". -/
noncomputable def specTerm (i a b : ℕ) (seed : ℤ) : ℝ :=
  let t : ℤ := (a : ℤ) * seed ^ b
  let v : ℝ := if t = 0 then 0 else (10 : ℝ) ^ Int.fract (Real.logb 10 (t : ℝ))
  if Even i then Real.sin v else Real.tan v

/-- Modelled from the spec's words: the sum of the per-position terms over
the digit positions of the two (equal-length) digit sequences. -/
noncomputable def specSum (d1 d2 : List ℕ) (seed : ℤ) : ℝ :=
  ∑ i ∈ Finset.range d1.length, specTerm i (d1.getD i 0) (d2.getD i 0) seed

/-- Modelled from the spec's words: the rounding (to `L = KEY_LENGTH`
significant digits) of the sum of `sin`/`tan` terms over the decimal digit
positions of the two keys. -/
noncomputable def specDerive (k1 k2 : ℕ) (seed : ℤ) : ℝ :=
  round_sig (specSum (decimalDigits k1) (decimalDigits k2) seed) KEY_LENGTH

/-! ## Demo states used by the witness theorems
-/

/-- A demo instant: 2024-01-05 14:00 UTC, with `time_seed _ 0 = 514`. -/
def demoNow : UTCTime := ⟨2024, 1, 5, 14, 0⟩

/-- A second demo instant in the same hour: 2024-01-05 14:30 UTC. -/
def demoNow2 : UTCTime := ⟨2024, 1, 5, 14, 30⟩

/-- A demo record: registered, challenged at window 514, not yet locked. -/
def demoUser : ZKUser := ⟨"alice", 1234, some 5678, some 514, false⟩

/-- A demo record that is locked, with a stale challenge window (300). -/
def demoStale : ZKUser := ⟨"alice", 1234, some 5678, some 300, true⟩

/-- A demo record that is locked, challenged at window 514. -/
def demoLocked : ZKUser := ⟨"alice", 1234, some 5678, some 514, true⟩

/-- A demo record that was registered but never issued a challenge. -/
def demoFresh : ZKUser := ⟨"dave", 4321, none, none, false⟩

/-- A one-record demo server holding `u` under its own name. -/
def demoServer (u : ZKUser) : ZKServer :=
  ⟨fun n => if n = u.name then some u else none⟩

/-! ## Helper lemmas
-/

/-- With a non-negative seed the term at each position is the spec's term:
`t = a * seed ^ b` is non-negative, so the domain-error branch is dead and
the even/odd split agrees with the spec's parity wording. -/
theorem tokTerm_eq_spec (i a b : ℕ) (seed : ℤ) (hs : 0 ≤ seed) :
    tokTerm i a b seed = Except.ok (specTerm i a b seed) := by
  have ht : 0 ≤ (a : ℤ) * seed ^ b :=
    mul_nonneg (Int.natCast_nonneg a) (pow_nonneg hs b)
  simp only [tokTerm, specTerm, sinOrTan, Nat.even_iff]
  rcases eq_or_lt_of_le ht with h0 | hpos
  · rw [if_pos h0.symm, if_pos h0.symm]
  · rw [if_neg hpos.ne', if_neg (not_lt.mpr ht), if_neg hpos.ne']

/-- With a non-negative seed the loop never raises and computes the spec's
sum (with positions offset by the starting index `i`). -/
theorem tokenLoop_eq_spec (seed : ℤ) (hs : 0 ≤ seed) :
    ∀ (l1 l2 : List ℕ) (i : ℕ), l1.length = l2.length →
      tokenLoop seed i l1 l2 =
        Except.ok (∑ j ∈ Finset.range l1.length,
          specTerm (i + j) (l1.getD j 0) (l2.getD j 0) seed) := by
  intro l1
  induction l1 with
  | nil => intro l2 i _; simp [tokenLoop]
  | cons a as ih =>
    intro l2 i hlen
    cases l2 with
    | nil => simp at hlen
    | cons b bs =>
      have hlen' : as.length = bs.length := by simpa using hlen
      simp only [tokenLoop, tokTerm_eq_spec i a b seed hs, ih bs (i + 1) hlen']
      simp only [List.length_cons]
      rw [Finset.sum_range_succ']
      simp only [List.getD_cons_succ, List.getD_cons_zero, Nat.add_zero]
      rw [add_comm]
      have harg : ∀ j : ℕ, i + 1 + j = i + (j + 1) := fun j => by omega
      simp only [harg]

/-- With a non-negative seed a single loop iteration never raises. -/
theorem tokTerm_exists_ok (i a b : ℕ) (seed : ℤ) (hs : 0 ≤ seed) :
    ∃ r, tokTerm i a b seed = Except.ok r := by
  have ht : 0 ≤ (a : ℤ) * seed ^ b :=
    mul_nonneg (Int.natCast_nonneg a) (pow_nonneg hs b)
  rcases eq_or_lt_of_le ht with h0 | hpos
  · exact ⟨_, by simp only [tokTerm]; rw [if_pos h0.symm]⟩
  · exact ⟨_, by simp only [tokTerm]; rw [if_neg hpos.ne', if_neg (not_lt.mpr ht)]⟩

/-- With a non-negative seed the whole loop never raises. -/
theorem tokenLoop_exists_ok (seed : ℤ) (hs : 0 ≤ seed) :
    ∀ (l1 : List ℕ) (i : ℕ) (l2 : List ℕ),
      ∃ r, tokenLoop seed i l1 l2 = Except.ok r := by
  intro l1
  induction l1 with
  | nil => intro i l2; exact ⟨0, rfl⟩
  | cons a as ih =>
    intro i l2
    cases l2 with
    | nil => exact ⟨0, rfl⟩
    | cons b bs =>
      obtain ⟨t, htm⟩ := tokTerm_exists_ok i a b seed hs
      obtain ⟨r, hr⟩ := ih (i + 1) bs
      exact ⟨t + r, by simp only [tokenLoop, htm, hr]⟩

/-- For non-negative keys of equal digit-length and a non-negative seed,
`tokenize` returns a value. -/
theorem tokenize_exists_ok (k1 k2 seed : ℤ) (h1 : 0 ≤ k1) (h2 : 0 ≤ k2)
    (hs : 0 ≤ seed)
    (hlen : (decimalDigits k1.toNat).length = (decimalDigits k2.toNat).length) :
    ∃ r, tokenize k1 k2 seed = Except.ok r := by
  obtain ⟨v, hv⟩ :=
    tokenLoop_exists_ok seed hs (decimalDigits k1.toNat) 0 (decimalDigits k2.toNat)
  refine ⟨round_sig v KEY_LENGTH, ?_⟩
  simp only [tokenize, digitsOf, if_neg (not_lt.mpr h1), if_neg (not_lt.mpr h2)]
  rw [if_neg (not_not_intro hlen), hv]

/-- The function `verify` always hands back the record with `locked = true`: either it
sets the flag, or the immediate-reject guard held, which already required
`locked = true`. -/
theorem verify_snd_eq (u : ZKUser) (token : ℝ) (now : UTCTime) :
    (u.verify token now).2 = { u with locked := true } := by
  unfold ZKUser.verify
  by_cases h : u.locked = true ∧ u.stime = some (time_seed now 0)
  · rw [if_pos h]
    obtain ⟨hl, -⟩ := h
    cases u
    simp only at hl
    simp [hl]
  · rw [if_neg h]
    cases htok : tokenizeOpt u.key1 u.key2 (time_seed now 0) <;> simp [htok]

/-- Unfolding `verify_token` at a registered identity. -/
theorem verify_token_eq (s : ZKServer) (name : String) (u : ZKUser) (tok : ℝ)
    (now : UTCTime) (h : s.users name = some u) :
    s.verify_token name tok now =
      ((u.verify tok now).1, s.update name (u.verify tok now).2) := by
  unfold ZKServer.verify_token
  rw [h]

/-! ## Claim C4 — the time window function
-/

/-- Claim C4 (counterexample): two valid instants a month apart — 5 January
and 5 February 2024, both at 14:xx UTC — get equal `time_seed` values while
they are not in the same UTC hour of the same UTC day, because the seed
reads only day-of-month and hour.  This refutes the claimed "equal iff same
UTC hour of the same UTC day". -/
theorem time_seed_collides_across_months :
    time_seed ⟨2024, 1, 5, 14, 0⟩ 0 = time_seed ⟨2024, 2, 5, 14, 30⟩ 0 ∧
    (UTCTime.mk 2024 1 5 14 0).valid ∧ (UTCTime.mk 2024 2 5 14 30).valid ∧
    ¬ sameUTCHour ⟨2024, 1, 5, 14, 0⟩ ⟨2024, 2, 5, 14, 30⟩ :=
  ⟨by decide, by decide, by decide, by decide⟩

/-- Claim C4 (amended): for equal offsets and in-range hours, two
`time_seed` values are equal iff the two instants share day-of-month and
hour-of-day (so within any one month this is "same UTC hour of the same UTC
day", but the value recurs monthly). -/
theorem time_seed_eq_iff_day_hour (t₁ t₂ : UTCTime) (off : ℤ)
    (h₁ : t₁.hour < 24) (h₂ : t₂.hour < 24) :
    time_seed t₁ off = time_seed t₂ off ↔ t₁.day = t₂.day ∧ t₁.hour = t₂.hour := by
  unfold time_seed
  omega

/-- Witness for the amended C4 theorem at two concrete instants half an
hour apart. -/
theorem time_seed_eq_iff_day_hour_witness :
    (UTCTime.mk 2024 1 5 14 0).hour < 24 ∧ (UTCTime.mk 2024 1 5 14 30).hour < 24 ∧
    (time_seed ⟨2024, 1, 5, 14, 0⟩ 3 = time_seed ⟨2024, 1, 5, 14, 30⟩ 3 ↔
      (UTCTime.mk 2024 1 5 14 0).day = (UTCTime.mk 2024 1 5 14 30).day ∧
      (UTCTime.mk 2024 1 5 14 0).hour = (UTCTime.mk 2024 1 5 14 30).hour) :=
  ⟨by decide, by decide,
    time_seed_eq_iff_day_hour ⟨2024, 1, 5, 14, 0⟩ ⟨2024, 1, 5, 14, 30⟩ 3
      (by decide) (by decide)⟩

/-! ## Claim C8 — registration is idempotent
-/

/-- Claim C8: `register_user` is idempotent — a second registration of the
same identity returns the first call's secret and leaves the server state
exactly as the first call left it; and for an already-registered identity
it returns the existing secret with no state change at all. -/
theorem register_user_idempotent (s : ZKServer) (name : String) (f₁ f₂ : ℤ) :
    ((s.register_user name f₁).2.register_user name f₂).1 = (s.register_user name f₁).1 ∧
    ((s.register_user name f₁).2.register_user name f₂).2 = (s.register_user name f₁).2 ∧
    ∀ u, s.users name = some u → s.register_user name f₁ = (u.key1, s) := by
  cases h : s.users name with
  | some u =>
    refine ⟨by simp [ZKServer.register_user, h], by simp [ZKServer.register_user, h], ?_⟩
    intro u' hu'
    injection hu' with hq
    subst hq
    simp [ZKServer.register_user, h]
  | none =>
    refine ⟨?_, ?_, ?_⟩
    · simp [ZKServer.register_user, h, ZKServer.update, ZKUser.init]
    · simp [ZKServer.register_user, h, ZKServer.update, ZKUser.init]
    · intro u' hu'
      simp at hu'

/-- Witness for C8 on a concrete one-user server. -/
theorem register_user_idempotent_witness :
    (((ZKServer.mk fun n => if n = "alice" then some (ZKUser.init "alice" 1234) else none).register_user
        "bob" 4321).2.register_user "bob" 8765).1 =
      ((ZKServer.mk fun n => if n = "alice" then some (ZKUser.init "alice" 1234) else none).register_user
        "bob" 4321).1 ∧
    (((ZKServer.mk fun n => if n = "alice" then some (ZKUser.init "alice" 1234) else none).register_user
        "bob" 4321).2.register_user "bob" 8765).2 =
      ((ZKServer.mk fun n => if n = "alice" then some (ZKUser.init "alice" 1234) else none).register_user
        "bob" 4321).2 ∧
    ∀ u, (ZKServer.mk fun n => if n = "alice" then some (ZKUser.init "alice" 1234) else none).users
        "bob" = some u →
      (ZKServer.mk fun n => if n = "alice" then some (ZKUser.init "alice" 1234) else none).register_user
        "bob" 4321 = (u.key1, ⟨fun n => if n = "alice" then some (ZKUser.init "alice" 1234) else none⟩) :=
  register_user_idempotent ⟨fun n => if n = "alice" then some (ZKUser.init "alice" 1234) else none⟩
    "bob" 4321 8765

/-! ## Claim C9 — operations against an unregistered identity
-/

/-- Claim C9: for an identity with no record, `issue_challenge` yields the
distinguishable `none` (the HTTP layer turns it into a 404), while
`verify_token` yields `Except.ok false` — the very value a wrong proof
produces, hence indistinguishable from one — and neither call changes the
server state. -/
theorem unknown_identity_behavior (s : ZKServer) (name : String)
    (h : s.users name = none) :
    (∀ fresh now, s.issue_challenge name fresh now = (none, s)) ∧
    (∀ (tok : ℝ) now, s.verify_token name tok now = (Except.ok false, s)) := by
  constructor
  · intro fresh now; simp [ZKServer.issue_challenge, h]
  · intro tok now; simp [ZKServer.verify_token, h]

/-- Witness for C9 on the empty server. -/
theorem unknown_identity_behavior_witness :
    (∀ fresh now, (ZKServer.mk fun _ => none).issue_challenge "carol" fresh now =
      (none, ⟨fun _ => none⟩)) ∧
    (∀ (tok : ℝ) now, (ZKServer.mk fun _ => none).verify_token "carol" tok now =
      (Except.ok false, ⟨fun _ => none⟩)) :=
  unknown_identity_behavior ⟨fun _ => none⟩ "carol" rfl

/-! ## Claim C7 — the lock is never cleared
-/

/-- Claim C7: once a record is locked, no server operation unlocks it.
`register_user` leaves an existing record untouched, `issue_challenge`
rewrites only `key2`/`stime` (not `name`, `key1` or `locked`), and
`verify` only ever writes `locked := true`; so a locked record stays
locked under every operation, on any identity. -/
theorem locked_is_permanent (s : ZKServer) (name : String) (u : ZKUser)
    (hu : s.users name = some u) (hl : u.locked = true) :
    (∀ name' fresh, ∃ u', ((s.register_user name' fresh).2).users name = some u' ∧
        u'.locked = true) ∧
    (∀ name' fresh now, ∃ u', ((s.issue_challenge name' fresh now).2).users name = some u' ∧
        u'.locked = true) ∧
    (∀ name' (tok : ℝ) now, ∃ u', ((s.verify_token name' tok now).2).users name = some u' ∧
        u'.locked = true) ∧
    (∀ fresh now, ((u.get_challenge_key fresh now).2).key1 = u.key1 ∧
        ((u.get_challenge_key fresh now).2).name = u.name ∧
        ((u.get_challenge_key fresh now).2).locked = u.locked) ∧
    (∀ (tok : ℝ) now, (u.verify tok now).2 = { u with locked := true }) := by
  refine ⟨?_, ?_, ?_, fun fresh now => ⟨rfl, rfl, rfl⟩, fun tok now => verify_snd_eq u tok now⟩
  · intro name' fresh
    cases h' : s.users name' with
    | some v => exact ⟨u, by simp [ZKServer.register_user, h', hu], hl⟩
    | none =>
      have hne : name ≠ name' := by
        intro he
        subst he
        rw [hu] at h'
        simp at h'
      exact ⟨u, by simp [ZKServer.register_user, h', ZKServer.update, hne, hu], hl⟩
  · intro name' fresh now
    cases h' : s.users name' with
    | none => exact ⟨u, by simp [ZKServer.issue_challenge, h', hu], hl⟩
    | some v =>
      by_cases he : name = name'
      · subst he
        rw [hu] at h'
        injection h' with hv
        subst hv
        refine ⟨(u.get_challenge_key fresh now).2, ?_, hl⟩
        simp [ZKServer.issue_challenge, hu, ZKServer.update]
      · exact ⟨u, by simp [ZKServer.issue_challenge, h', ZKServer.update, he, hu], hl⟩
  · intro name' tok now
    cases h' : s.users name' with
    | none => exact ⟨u, by simp [ZKServer.verify_token, h', hu], hl⟩
    | some v =>
      by_cases he : name = name'
      · subst he
        rw [hu] at h'
        injection h' with hv
        subst hv
        refine ⟨{ u with locked := true }, ?_, rfl⟩
        simp [ZKServer.verify_token, hu, ZKServer.update, verify_snd_eq]
      · exact ⟨u, by simp [ZKServer.verify_token, h', ZKServer.update, he, hu], hl⟩

/-- Witness for C7 on a concrete locked record. -/
theorem locked_is_permanent_witness :
    (∀ name' fresh, ∃ u',
        (((demoServer demoLocked).register_user name' fresh).2).users "alice" = some u' ∧
        u'.locked = true) ∧
    (∀ name' fresh now, ∃ u',
        (((demoServer demoLocked).issue_challenge name' fresh now).2).users "alice" = some u' ∧
        u'.locked = true) ∧
    (∀ name' (tok : ℝ) now, ∃ u',
        (((demoServer demoLocked).verify_token name' tok now).2).users "alice" = some u' ∧
        u'.locked = true) ∧
    (∀ fresh now, ((demoLocked.get_challenge_key fresh now).2).key1 = demoLocked.key1 ∧
        ((demoLocked.get_challenge_key fresh now).2).name = demoLocked.name ∧
        ((demoLocked.get_challenge_key fresh now).2).locked = demoLocked.locked) ∧
    (∀ (tok : ℝ) now, (demoLocked.verify tok now).2 = { demoLocked with locked := true }) :=
  locked_is_permanent (demoServer demoLocked) "alice" demoLocked (by decide) rfl

/-! ## Claim C10 — verify before any challenge
-/

/-- Claim C10: a `verify_token` call for a registered identity that was
never issued a challenge (`key2 = None`, `stime = None`) does not produce a
boolean: the lock guard cannot fire (`None == int` is false), `locked` is
set to `true`, and deriving the proof from the absent challenge raises the
digit-extraction `ValueError` (`int('N')` on `str(None)`), which escapes —
yet the mutated record (now locked, still challenge-less) is kept. -/
theorem verify_before_challenge_raises (s : ZKServer) (name : String) (u : ZKUser)
    (tok : ℝ) (now : UTCTime) (hu : s.users name = some u)
    (hk : u.key2 = none) (hst : u.stime = none) :
    (s.verify_token name tok now).1 = Except.error TokError.invalidDigit ∧
    ∃ u', ((s.verify_token name tok now).2).users name = some u' ∧
      u'.locked = true ∧ u'.key1 = u.key1 ∧ u'.key2 = none ∧ u'.stime = none := by
  have hguard : ¬ (u.locked = true ∧ u.stime = some (time_seed now 0)) := by
    rintro ⟨-, h⟩
    rw [hst] at h
    simp at h
  have hv1 : (u.verify tok now).1 = Except.error TokError.invalidDigit := by
    unfold ZKUser.verify
    rw [if_neg hguard]
    simp [tokenizeOpt, hk]
  refine ⟨by simp [ZKServer.verify_token, hu, hv1],
    ⟨{ u with locked := true }, ?_, rfl, rfl, hk, hst⟩⟩
  simp [ZKServer.verify_token, hu, ZKServer.update, verify_snd_eq]

/-- Witness for C10 on a concrete never-challenged record. -/
theorem verify_before_challenge_raises_witness :
    ((demoServer demoFresh).verify_token "dave" 0 demoNow).1 =
      Except.error TokError.invalidDigit ∧
    ∃ u', (((demoServer demoFresh).verify_token "dave" 0 demoNow).2).users "dave" = some u' ∧
      u'.locked = true ∧ u'.key1 = demoFresh.key1 ∧ u'.key2 = none ∧ u'.stime = none :=
  verify_before_challenge_raises (demoServer demoFresh) "dave" demoFresh 0 demoNow
    (by decide) rfl rfl

/-! ## Claim C2 — one verification attempt per window
-/

/-- Claim C2: for a registered identity whose challenge window is the
current one, after a first `verify_token` call (whatever its outcome —
`true`, `false`, or the exception path, all of which leave `locked = true`),
any second `verify_token` call in the same time window returns `false`
whatever value is submitted: the lock guard rejects before any proof is
recomputed. -/
theorem second_verify_same_window_fails (s : ZKServer) (name : String) (u : ZKUser)
    (tok₁ tok₂ : ℝ) (now₁ now₂ : UTCTime)
    (hu : s.users name = some u)
    (hst : u.stime = some (time_seed now₁ 0))
    (hw : time_seed now₁ 0 = time_seed now₂ 0) :
    (((s.verify_token name tok₁ now₁).2).verify_token name tok₂ now₂).1 =
      Except.ok false := by
  have hs1 : ((s.verify_token name tok₁ now₁).2).users name =
      some { u with locked := true } := by
    simp [ZKServer.verify_token, hu, ZKServer.update, verify_snd_eq]
  have hguard : ({ u with locked := true } : ZKUser).locked = true ∧
      ({ u with locked := true } : ZKUser).stime = some (time_seed now₂ 0) := by
    refine ⟨rfl, ?_⟩
    show u.stime = some (time_seed now₂ 0)
    rw [hst, hw]
  have hv : ZKUser.verify { u with locked := true } tok₂ now₂ =
      (Except.ok false, { u with locked := true }) := by
    unfold ZKUser.verify
    rw [if_pos hguard]
  rw [verify_token_eq _ _ _ tok₂ now₂ hs1, hv]

/-- Witness for C2: two verification attempts half an hour apart in the
same window, the second failing by the lock guard alone. -/
theorem second_verify_same_window_fails_witness :
    (((demoServer demoUser).verify_token "alice" 7 demoNow).2.verify_token
      "alice" 7 demoNow2).1 = Except.ok false :=
  second_verify_same_window_fails (demoServer demoUser) "alice" demoUser 7 7
    demoNow demoNow2 (by decide) (by decide) (by decide)

/-! ## Claim C1 — the success condition of verification
-/

/-- Claim C1: for a registered identity with an issued challenge, a
`verify_token` call that is not rejected by the same-window lock guard
succeeds exactly when the submitted value equals
`tokenize(record.key1, record.key2, time_seed(0))` evaluated at call time —
the freshly computed window, not the stored `stime` (which the statement
leaves arbitrary apart from the guard).  The range hypotheses (non-negative
keys and seed, equal digit-lengths) hold for every record the server
creates and make the derivation total. -/
theorem verify_token_succeeds_iff (s : ZKServer) (name : String) (u : ZKUser) (c : ℤ)
    (tok : ℝ) (now : UTCTime)
    (hu : s.users name = some u) (hc : u.key2 = some c)
    (hg : ¬ (u.locked = true ∧ u.stime = some (time_seed now 0)))
    (h1 : 0 ≤ u.key1) (h2 : 0 ≤ c) (hsd : 0 ≤ time_seed now 0)
    (hlen : (decimalDigits u.key1.toNat).length = (decimalDigits c.toNat).length) :
    ((s.verify_token name tok now).1 = Except.ok true ↔
      tokenize u.key1 c (time_seed now 0) = Except.ok tok) := by
  obtain ⟨p, hp⟩ := tokenize_exists_ok u.key1 c (time_seed now 0) h1 h2 hsd hlen
  have hv : (u.verify tok now).1 = Except.ok (if p = tok then true else false) := by
    unfold ZKUser.verify
    rw [if_neg hg]
    simp [tokenizeOpt, hc, hp]
  have hvt : (s.verify_token name tok now).1 =
      Except.ok (if p = tok then true else false) := by
    simp [ZKServer.verify_token, hu, hv]
  rw [hvt, hp]
  by_cases hpt : p = tok
  · simp [hpt]
  · simp [hpt]

/-- Witness for C1 on a locked record with a stale window (the guard does
not fire, and the expected proof is computed at the current window 514, not
the stored 300). -/
theorem verify_token_succeeds_iff_witness :
    (((demoServer demoStale).verify_token "alice" 0 demoNow).1 = Except.ok true ↔
      tokenize demoStale.key1 5678 (time_seed demoNow 0) = Except.ok 0) :=
  verify_token_succeeds_iff (demoServer demoStale) "alice" demoStale 5678 0 demoNow
    (by decide) rfl (by decide) (by decide) (by decide) (by decide) (by decide)

/-- Applied to a natural number, `digitsOf` always succeeds with its digit list. -/
theorem digitsOf_natCast (n : ℕ) : digitsOf (n : ℤ) = Except.ok (decimalDigits n) := by
  unfold digitsOf
  rw [if_neg (not_lt.mpr (Int.natCast_nonneg n)), Int.toNat_natCast]

/-! ## Claim C3 — the derivation formula
-/

/-- Claim C3 (counterexample): the claim quantifies over *every* integer
seed, but at `key1 = key2 = 1`, `seed = -10` the single position has
`t = 1 * (-10)^1 = -10 < 0`, so the code raises `math.log`'s domain error
instead of returning the claimed `sin`/`tan` sum (whose `log10 t` is not
even defined for negative `t`). -/
theorem tokenize_negative_seed_counterexample :
    tokenize 1 1 (-10) = Except.error TokError.domainError ∧
    Except.error TokError.domainError ≠ Except.ok (specDerive 1 1 (-10)) :=
  ⟨rfl, fun h => Except.noConfusion h⟩

/-- Claim C3 (amended): for non-negative keys of equal digit-length and a
*non-negative* integer seed (every `t = a * seed ^ b` is then
non-negative), `tokenize` returns exactly the spec's formula: the rounding
of the sum over digit positions of `sin(v)` (even positions) and `tan(v)`
(odd positions), with `v = 0` when `t = 0` and
`v = 10 ^ (log10 t mod 1)` otherwise. -/
theorem tokenize_eq_specDerive (k1 k2 : ℕ) (seed : ℤ) (hs : 0 ≤ seed)
    (hlen : (decimalDigits k1).length = (decimalDigits k2).length) :
    tokenize (k1 : ℤ) (k2 : ℤ) seed = Except.ok (specDerive k1 k2 seed) := by
  simp only [tokenize, digitsOf_natCast k1, digitsOf_natCast k2]
  rw [if_neg (not_not_intro hlen),
    tokenLoop_eq_spec seed hs (decimalDigits k1) (decimalDigits k2) 0 hlen]
  unfold specDerive specSum
  simp only [Nat.zero_add]

/-- Witness for the amended C3 theorem at keys 12, 34 and seed 514. -/
theorem tokenize_eq_specDerive_witness :
    (0 : ℤ) ≤ 514 ∧ (decimalDigits 12).length = (decimalDigits 34).length ∧
    tokenize ((12 : ℕ) : ℤ) ((34 : ℕ) : ℤ) 514 = Except.ok (specDerive 12 34 514) :=
  ⟨by decide, by decide, tokenize_eq_specDerive 12 34 514 (by decide) (by decide)⟩

/-! ## Claim C6 — error behaviour of the derivation
-/

/-- Claim C6 (counterexample): at the equal-length keys 11, 11 with seed
-2 the claim demands a value, but the code raises the (uncaught) domain
error from `math.log` at position 0 where `t = 1 * (-2)^1 = -2`; the
`except OverflowError` absorption cannot save it since the raised error is
a `ValueError`. -/
theorem tokenize_equal_length_negative_seed_raises :
    (decimalDigits 11).length = (decimalDigits 11).length ∧
    tokenize 11 11 (-2) = Except.error TokError.domainError :=
  ⟨rfl, rfl⟩

/-- Claim C6 (amended): for non-negative keys and a non-negative seed,
`tokenize` fails with `LengthMismatch` exactly when the two digit
sequences differ in length, and for equal-length digit sequences it always
returns a value.  (Negative keys instead fail digit extraction on the
sign character, and a negative seed can raise the `math.log` domain error;
in this real-number model no overflow can occur at all, so the
overflow-absorption branch contributes nothing.) -/
theorem tokenize_error_classification (k1 k2 : ℕ) (seed : ℤ) (hs : 0 ≤ seed) :
    (tokenize (k1 : ℤ) (k2 : ℤ) seed = Except.error TokError.lengthMismatch ↔
      (decimalDigits k1).length ≠ (decimalDigits k2).length) ∧
    ((decimalDigits k1).length = (decimalDigits k2).length →
      ∃ r, tokenize (k1 : ℤ) (k2 : ℤ) seed = Except.ok r) := by
  by_cases hlen : (decimalDigits k1).length = (decimalDigits k2).length
  · obtain ⟨r, hr⟩ := tokenize_exists_ok (k1 : ℤ) (k2 : ℤ) seed
      (Int.natCast_nonneg _) (Int.natCast_nonneg _) hs (by simpa using hlen)
    refine ⟨⟨fun h => ?_, fun h => absurd hlen h⟩, fun _ => ⟨r, hr⟩⟩
    rw [hr] at h
    exact Except.noConfusion h
  · refine ⟨⟨fun _ => hlen, fun _ => ?_⟩, fun h => absurd h hlen⟩
    simp only [tokenize, digitsOf_natCast k1, digitsOf_natCast k2]
    rw [if_pos hlen]

/-- Witness for the amended C6 theorem at keys 12 and 345 (a genuine
length mismatch) with seed 514. -/
theorem tokenize_error_classification_witness :
    (0 : ℤ) ≤ 514 ∧
    ((tokenize ((12 : ℕ) : ℤ) ((345 : ℕ) : ℤ) 514 = Except.error TokError.lengthMismatch ↔
        (decimalDigits 12).length ≠ (decimalDigits 345).length) ∧
      ((decimalDigits 12).length = (decimalDigits 345).length →
        ∃ r, tokenize ((12 : ℕ) : ℤ) ((345 : ℕ) : ℤ) 514 = Except.ok r)) :=
  ⟨by decide, tokenize_error_classification 12 345 514 (by decide)⟩

/-! ## Claim C5 — the rounding law
-/

/-- Round-half-even lands within one half of its argument. -/
theorem roundHalfEven_close (x : ℝ) : |(roundHalfEven x : ℝ) - x| ≤ 1 / 2 := by
  unfold roundHalfEven
  by_cases h : Int.fract x = 1 / 2
  · rw [if_pos h]
    by_cases he : Even ⌊x⌋
    · rw [if_pos he]
      have hf : ((⌊x⌋ : ℤ) : ℝ) + Int.fract x = x := Int.floor_add_fract x
      have hd : ((⌊x⌋ : ℤ) : ℝ) - x = -(Int.fract x) := by linarith
      rw [hd, abs_neg, h, abs_of_nonneg (by norm_num : (0 : ℝ) ≤ 1 / 2)]
    · rw [if_neg he]
      have hf : ((⌊x⌋ : ℤ) : ℝ) + Int.fract x = x := Int.floor_add_fract x
      have hd : (((⌊x⌋ + 1 : ℤ)) : ℝ) - x = 1 - Int.fract x := by
        push_cast
        linarith
      have hh : (1 : ℝ) - 1 / 2 = 1 / 2 := by norm_num
      rw [hd, h, hh, abs_of_nonneg (by norm_num : (0 : ℝ) ≤ 1 / 2)]
  · rw [if_neg h]
    rw [abs_sub_comm]
    exact abs_sub_round x

/-- The scaled value `x * 10 ^ (L - order - 1)` always lies in
`[10 ^ (L-1), 10 ^ L)` in magnitude (with `L = KEY_LENGTH = 4`). -/
theorem scaled_abs_bounds (x : ℝ) (hx : x ≠ 0) :
    (1000 : ℝ) ≤ |x * 10 ^ ((KEY_LENGTH : ℤ) - ⌊Real.logb 10 |x|⌋ - 1)| ∧
    |x * 10 ^ ((KEY_LENGTH : ℤ) - ⌊Real.logb 10 |x|⌋ - 1)| < 10000 := by
  have hx' : (0 : ℝ) < |x| := abs_pos.mpr hx
  have hlogx : (10 : ℝ) ^ Real.logb 10 |x| = |x| :=
    Real.rpow_logb (by norm_num) (by norm_num) hx'
  have hlow : (10 : ℝ) ^ (⌊Real.logb 10 |x|⌋ : ℤ) ≤ |x| := by
    have h1 : (10 : ℝ) ^ ((⌊Real.logb 10 |x|⌋ : ℝ)) ≤ (10 : ℝ) ^ Real.logb 10 |x| :=
      Real.rpow_le_rpow_of_exponent_le (by norm_num) (Int.floor_le _)
    rw [hlogx] at h1
    rw [← Real.rpow_intCast]
    exact h1
  have hhigh : |x| < (10 : ℝ) ^ (⌊Real.logb 10 |x|⌋ + 1 : ℤ) := by
    have h1 : (10 : ℝ) ^ Real.logb 10 |x| < (10 : ℝ) ^ ((⌊Real.logb 10 |x|⌋ : ℝ) + 1) :=
      Real.rpow_lt_rpow_of_exponent_lt (by norm_num) (Int.lt_floor_add_one _)
    rw [hlogx] at h1
    have hc : ((⌊Real.logb 10 |x|⌋ + 1 : ℤ) : ℝ) = (⌊Real.logb 10 |x|⌋ : ℝ) + 1 := by
      push_cast
      ring
    rw [← Real.rpow_intCast, hc]
    exact h1
  have hDpos : (0 : ℝ) < 10 ^ ((KEY_LENGTH : ℤ) - ⌊Real.logb 10 |x|⌋ - 1) :=
    zpow_pos (by norm_num) _
  have habs : |x * 10 ^ ((KEY_LENGTH : ℤ) - ⌊Real.logb 10 |x|⌋ - 1)| =
      |x| * 10 ^ ((KEY_LENGTH : ℤ) - ⌊Real.logb 10 |x|⌋ - 1) := by
    rw [abs_mul, abs_of_pos hDpos]
  have hpow3 : (10 : ℝ) ^ (⌊Real.logb 10 |x|⌋ : ℤ) *
      10 ^ ((KEY_LENGTH : ℤ) - ⌊Real.logb 10 |x|⌋ - 1) = 1000 := by
    rw [← zpow_add₀ (by norm_num : (10 : ℝ) ≠ 0)]
    have he : ⌊Real.logb 10 |x|⌋ + ((KEY_LENGTH : ℤ) - ⌊Real.logb 10 |x|⌋ - 1) = 3 := by
      simp only [KEY_LENGTH]
      omega
    rw [he]
    norm_num
  have hpow4 : (10 : ℝ) ^ (⌊Real.logb 10 |x|⌋ + 1 : ℤ) *
      10 ^ ((KEY_LENGTH : ℤ) - ⌊Real.logb 10 |x|⌋ - 1) = 10000 := by
    rw [← zpow_add₀ (by norm_num : (10 : ℝ) ≠ 0)]
    have he : ⌊Real.logb 10 |x|⌋ + 1 + ((KEY_LENGTH : ℤ) - ⌊Real.logb 10 |x|⌋ - 1) = 4 := by
      simp only [KEY_LENGTH]
      omega
    rw [he]
    norm_num
  constructor
  · rw [habs, ← hpow3]
    exact mul_le_mul_of_nonneg_right hlow (le_of_lt hDpos)
  · rw [habs, ← hpow4]
    exact mul_lt_mul_of_pos_right hhigh hDpos

/-- Rounding a value of magnitude in `[1000, 10000)` gives an integer of
magnitude in `[1000, 10000]`. -/
theorem roundHalfEven_bounds (z : ℝ) (h1 : (1000 : ℝ) ≤ |z|) (h2 : |z| < 10000) :
    (1000 : ℤ) ≤ |roundHalfEven z| ∧ |roundHalfEven z| ≤ 10000 := by
  have hclose := roundHalfEven_close z
  constructor
  · have ha : |z| - |(roundHalfEven z : ℝ)| ≤ 1 / 2 := by
      refine le_trans (abs_sub_abs_le_abs_sub z _) ?_
      rw [abs_sub_comm]
      exact hclose
    have hb : ((999 : ℤ) : ℝ) < ((|roundHalfEven z| : ℤ) : ℝ) := by
      rw [Int.cast_abs]
      push_cast
      linarith
    have hc : (999 : ℤ) < |roundHalfEven z| := by exact_mod_cast hb
    omega
  · have ha : |(roundHalfEven z : ℝ)| - |z| ≤ 1 / 2 :=
      le_trans (abs_sub_abs_le_abs_sub _ z) hclose
    have hb : ((|roundHalfEven z| : ℤ) : ℝ) < ((10001 : ℤ) : ℝ) := by
      rw [Int.cast_abs]
      push_cast
      linarith
    have hc : |roundHalfEven z| < 10001 := by exact_mod_cast hb
    omega

/-- Claim C5: `derive`'s output is `round_sig` of the pre-rounding sum
(line 54 of the source); for a zero sum `round_sig` returns exactly `0`,
and for a nonzero sum `x` the result is nonzero, is an integer multiple of
`10 ^ -(L - 1 - floor(log10 |x|))` (i.e. exactly `L - 1 - floor(log10 |x|)`
decimal places are kept), and equals `m * 10 ^ e` for some integer `m` with
`10 ^ (L-1) ≤ |m| < 10 ^ L` — exactly `L = KEY_LENGTH` significant decimal
digits. -/
theorem round_sig_significant_digits (x : ℝ) (hx : x ≠ 0) :
    round_sig 0 KEY_LENGTH = 0 ∧
    round_sig x KEY_LENGTH ≠ 0 ∧
    (∃ m : ℤ, round_sig x KEY_LENGTH =
      (m : ℝ) / 10 ^ ((KEY_LENGTH : ℤ) - ⌊Real.logb 10 |x|⌋ - 1)) ∧
    (∃ m e : ℤ, round_sig x KEY_LENGTH = (m : ℝ) * 10 ^ e ∧
      10 ^ (KEY_LENGTH - 1) ≤ |m| ∧ |m| < 10 ^ KEY_LENGTH) := by
  have hround : round_sig x KEY_LENGTH =
      (roundHalfEven (x * 10 ^ ((KEY_LENGTH : ℤ) - ⌊Real.logb 10 |x|⌋ - 1)) : ℝ) /
        10 ^ ((KEY_LENGTH : ℤ) - ⌊Real.logb 10 |x|⌋ - 1) := by
    simp only [round_sig, if_neg hx]
  obtain ⟨hb1, hb2⟩ := scaled_abs_bounds x hx
  obtain ⟨hm1, hm2⟩ := roundHalfEven_bounds _ hb1 hb2
  set D : ℤ := (KEY_LENGTH : ℤ) - ⌊Real.logb 10 |x|⌋ - 1 with hDdef
  set m0 : ℤ := roundHalfEven (x * 10 ^ D) with hm0def
  have hDpos : (0 : ℝ) < 10 ^ D := zpow_pos (by norm_num) _
  have hm0ne : m0 ≠ 0 := by
    intro h
    rw [h] at hm1
    simp at hm1
  refine ⟨by simp [round_sig], ?_, ⟨m0, hround⟩, ?_⟩
  · rw [hround]
    exact div_ne_zero (Int.cast_ne_zero.mpr hm0ne) (ne_of_gt hDpos)
  · rcases lt_or_eq_of_le hm2 with hlt | heq
    · refine ⟨m0, -D, ?_, ?_, ?_⟩
      · rw [hround, zpow_neg, div_eq_mul_inv]
      · simpa [KEY_LENGTH] using hm1
      · simpa [KEY_LENGTH] using hlt
    · rcases (abs_eq (by norm_num : (0 : ℤ) ≤ 10000)).mp heq with h10 | h10
      · refine ⟨1000, 1 - D, ?_, by norm_num [KEY_LENGTH], by norm_num [KEY_LENGTH]⟩
        have hq : (10 : ℝ) ^ ((1 : ℤ) - D) = 10 / 10 ^ D := by
          rw [zpow_sub₀ (by norm_num : (10 : ℝ) ≠ 0), zpow_one]
        rw [hround, h10, hq, ← mul_div_assoc]
        norm_num
      · refine ⟨-1000, 1 - D, ?_, by norm_num [KEY_LENGTH], by norm_num [KEY_LENGTH]⟩
        have hq : (10 : ℝ) ^ ((1 : ℤ) - D) = 10 / 10 ^ D := by
          rw [zpow_sub₀ (by norm_num : (10 : ℝ) ≠ 0), zpow_one]
        rw [hround, h10, hq, ← mul_div_assoc]
        norm_num

/-- Witness for C5 at the pre-rounding sum `1`. -/
theorem round_sig_significant_digits_witness :
    (1 : ℝ) ≠ 0 ∧
    (round_sig 0 KEY_LENGTH = 0 ∧
     round_sig 1 KEY_LENGTH ≠ 0 ∧
     (∃ m : ℤ, round_sig 1 KEY_LENGTH =
       (m : ℝ) / 10 ^ ((KEY_LENGTH : ℤ) - ⌊Real.logb 10 |(1 : ℝ)|⌋ - 1)) ∧
     (∃ m e : ℤ, round_sig 1 KEY_LENGTH = (m : ℝ) * 10 ^ e ∧
       10 ^ (KEY_LENGTH - 1) ≤ |m| ∧ |m| < 10 ^ KEY_LENGTH)) :=
  ⟨by norm_num, round_sig_significant_digits 1 (by norm_num)⟩
